import Mathlib

/-!
Verification of the DBoard dashboard-preparation core
(`Scripts/prepare_dashboard_data.py`).

Shallow embedding conventions:
* Python dicts (which preserve insertion order) are modelled as association
  lists `List (String × β)`; updating creates the key at the end when absent,
  exactly like CPython's insertion-ordered dicts.
* JSON numbers are modelled as exact rationals (`ℚ`) for prices/revenue and
  integers (`ℤ`) for quantities/counts.
* `str.lower()` / `str.upper()` are modelled per character for the Latin and
  Cyrillic alphabets that occur in the cluster tables; other characters are
  left unchanged.
* Python's built-in `hash` on strings is salted per process, so it is
  modelled as an explicit parameter `pyHash : String → Nat` of the run.
* `sorted(key=…, reverse=True)` is modelled as a stable descending insertion
  sort (CPython's sort is stable, and `reverse=True` keeps equal keys in
  their original order).
-/

set_option maxHeartbeats 1000000

namespace DBoard

/-! ## Definitions: the shallow embedding of the program -/

def lowerPairs : List (Char × Char) :=
  [('A', 'a'), ('B', 'b'), ('C', 'c'), ('D', 'd'), ('E', 'e'), ('F', 'f'),
   ('G', 'g'), ('H', 'h'), ('I', 'i'), ('J', 'j'), ('K', 'k'), ('L', 'l'),
   ('M', 'm'), ('N', 'n'), ('O', 'o'), ('P', 'p'), ('Q', 'q'), ('R', 'r'),
   ('S', 's'), ('T', 't'), ('U', 'u'), ('V', 'v'), ('W', 'w'), ('X', 'x'),
   ('Y', 'y'), ('Z', 'z'),
   ('А', 'а'), ('Б', 'б'), ('В', 'в'), ('Г', 'г'), ('Д', 'д'), ('Е', 'е'),
   ('Ж', 'ж'), ('З', 'з'), ('И', 'и'), ('Й', 'й'), ('К', 'к'), ('Л', 'л'),
   ('М', 'м'), ('Н', 'н'), ('О', 'о'), ('П', 'п'), ('Р', 'р'), ('С', 'с'),
   ('Т', 'т'), ('У', 'у'), ('Ф', 'ф'), ('Х', 'х'), ('Ц', 'ц'), ('Ч', 'ч'),
   ('Ш', 'ш'), ('Щ', 'щ'), ('Ъ', 'ъ'), ('Ы', 'ы'), ('Ь', 'ь'), ('Э', 'э'),
   ('Ю', 'ю'), ('Я', 'я'), ('Ё', 'ё')]

def pyLowerChar (c : Char) : Char :=
  ((lowerPairs.find? (fun p => p.1 == c)).map (fun p => p.2)).getD c

def pyUpperChar (c : Char) : Char :=
  ((lowerPairs.find? (fun p => p.2 == c)).map (fun p => p.1)).getD c

def strLower (s : String) : String := ⟨s.data.map pyLowerChar⟩

def strUpper (s : String) : String := ⟨s.data.map pyUpperChar⟩

def isPrefixB : List Char → List Char → Bool
  | [], _ => true
  | _ :: _, [] => false
  | a :: as, b :: bs => a == b && isPrefixB as bs

def isSubstrB (needle : List Char) : List Char → Bool
  | [] => needle.isEmpty
  | h :: t => isPrefixB needle (h :: t) || isSubstrB needle t

variable {β : Type} {M : Type}

def lookupA (k : String) : List (String × β) → Option β
  | [] => none
  | (k', v) :: t => if k' = k then some v else lookupA k t

def bump (l : List (String × β)) (k : String) (init : β) (f : β → β) :
    List (String × β) :=
  match l with
  | [] => [(k, f init)]
  | (k', v) :: t => if k' = k then (k', f v) :: t else (k', v) :: bump t k init f

def firstKeys (names : List String) : List String :=
  names.foldl (fun acc n => if n ∈ acc then acc else acc ++ [n]) []

def insDesc {α : Type} (key : α → ℚ) (x : α) : List α → List α
  | [] => [x]
  | y :: ys => if key y ≤ key x then x :: y :: ys else y :: insDesc key x ys

def sortDesc {α : Type} (key : α → ℚ) : List α → List α
  | [] => []
  | x :: xs => insDesc key x (sortDesc key xs)

def charsLt : List Char → List Char → Bool
  | [], [] => false
  | [], _ :: _ => true
  | _ :: _, [] => false
  | a :: as, b :: bs =>
    if a.toNat < b.toNat then true
    else if b.toNat < a.toNat then false
    else charsLt as bs

def insAscStr (x : String) : List String → List String
  | [] => [x]
  | y :: ys => if charsLt x.data y.data then x :: y :: ys else y :: insAscStr x ys

def sortAscStr : List String → List String
  | [] => []
  | x :: xs => insAscStr x (sortAscStr xs)

inductive MP where
  | wb
  | ozon
deriving DecidableEq

def WB_CLUSTERS : List (String × List String) :=
  [("Центральный",
    ["пушкино", "вёшки", "вешки", "иваново", "подольск", "радумля", "обухово",
     "чашниково", "воронеж", "истра", "коледино", "домодедово", "никольское",
     "тверь", "голицыно", "софьино", "ярославль", "цифровой", "рязань",
     "тюшевское", "сабурово", "владимир", "тула", "котовск", "электросталь",
     "белая дача", "щербинка", "чехов"]),
   ("Северо-Западный",
    ["вологда", "шушары", "красный бор", "санкт-петербург", "спб", "уткина"]),
   ("Приволжский",
    ["ижевск", "кузнецк", "пенза", "самара", "новосемейкино", "сарапул", "казань"]),
   ("Уральский",
    ["нижний тагил", "челябинск", "екатеринбург"]),
   ("Южный + Северо-Кавказский",
    ["крыловская", "краснодар", "волгоград", "невинномысск", "тихорецкая"]),
   ("Дальневосточный + Сибирский",
    ["хабаровск", "барнаул", "владивосток", "юрга", "новосибирск"]),
   ("Казахстан", ["байсерке", "атакент", "актобе", "астана"]),
   ("Беларусь", ["минск", "брест", "гродно"]),
   ("Узбекистан", ["ташкент"]),
   ("Армения", ["ереван"]),
   ("Грузия", ["тбилиси"])]

def OZON_CLUSTERS : List (String × List String) :=
  [("Москва, МО и Дальние регионы",
    ["хоругвино", "ногинск", "пушкино", "софьино", "радумля", "павло",
     "слободское", "петровское", "жуковский", "домодедово", "гривно"]),
   ("Санкт-Петербург и СЗО",
    ["колпино", "шушары", "волхонка", "санкт-петербург", "спб", "бугры"]),
   ("Казань", ["казань", "кзн", "столбище", "нижний новгород"]),
   ("Самара", ["самара"]),
   ("Уфа", ["уфа"]),
   ("Оренбург", ["оренбург"]),
   ("Краснодар", ["адыгейск", "южный обход", "новороссийск"]),
   ("Ростов", ["ростов"]),
   ("Воронеж", ["воронеж"]),
   ("Саратов", ["волгоград", "саратов"]),
   ("Невинномысск", ["невинномысск"]),
   ("Махачкала", ["махачкала"]),
   ("Красноярск", ["красноярск"]),
   ("Новосибирск", ["новосибирск"]),
   ("Омск", ["омск"]),
   ("Екатеринбург", ["екатеринбург"]),
   ("Пермь", ["пермь"]),
   ("Тюмень", ["тюмень"]),
   ("Дальний Восток", ["хабаровск"]),
   ("Тверь", ["тверь"]),
   ("Ярославль", ["ярославль"]),
   ("Калининград", ["калининград"]),
   ("Беларусь", ["минск"]),
   ("Астана", ["астана"]),
   ("Алматы", ["алматы"]),
   ("Армения", ["ереван"])]

def clusterTable : MP → List (String × List String)
  | MP.wb => WB_CLUSTERS
  | MP.ozon => OZON_CLUSTERS

def clusterMatches (entry : String × List String) (name : List Char) : Bool :=
  entry.2.any fun kw => isSubstrB kw.data name

def findCluster (tbl : List (String × List String)) (name : List Char) :
    Option String :=
  match tbl with
  | [] => none
  | e :: rest => if clusterMatches e name then some e.1 else findCluster rest name

def get_warehouse_cluster (warehouse_name : String) (mp : MP) : String :=
  let name := strLower warehouse_name
  (findCluster (clusterTable mp) name.data).getD "Прочие"

def firstMatching (tbl : List (String × List String)) (name : List Char)
    (c : String) : Prop :=
  ∃ pre e post, tbl = pre ++ e :: post ∧ e.1 = c ∧
    clusterMatches e name = true ∧ ∀ e2 ∈ pre, clusterMatches e2 name = false

structure Period where
  key : String
  days : Int
  exact_day : Bool := false
  label : String
deriving DecidableEq

def periods_config : List Period :=
  [{ key := "today", days := 0, label := "Сегодня" },
   { key := "yesterday", days := 1, exact_day := true, label := "Вчера" },
   { key := "days_3", days := 2, label := "3 дня" },
   { key := "days_7", days := 6, label := "7 дней" },
   { key := "days_30", days := 29, label := "30 дней" }]

def daysFromCivil (y m d : Nat) : Nat :=
  let yAdj := if m ≤ 2 then y - 1 else y
  let era := yAdj / 400
  let yoe := yAdj % 400
  let mp := (m + 9) % 12
  let doy := (153 * mp + 2) / 5 + d - 1
  let doe := yoe * 365 + yoe / 4 - yoe / 100 + doy
  era * 146097 + doe

def includeInWindow (p : Period) (today d : Int) : Bool :=
  if p.exact_day then d == today - p.days
  else decide (today - p.days ≤ d)

def color_map : List (String × String) :=
  [("SF0125", "#614701"), ("SF0250", "#80651b"), ("SF0500", "#b38c24"),
   ("SF2500", "#b38c24"), ("SM0250", "#78011b"), ("SM0500", "#78011b"),
   ("FSF300", "#015054")]

def fallback_colors : List String :=
  ["#6366f1", "#14b8a6", "#f97316", "#ef4444", "#22c55e"]

def get_article_color (pyHash : String → Nat) (article : String) : String :=
  let au := strUpper article
  (lookupA au color_map).getD
    (if isPrefixB "FSF".data au.data then "#015054"
     else if isPrefixB "SF".data au.data then "#80651b"
     else if isPrefixB "SM".data au.data then "#78011b"
     else (fallback_colors.get? (pyHash article % fallback_colors.length)).getD "")

structure OzonProduct where
  offer_id : Option String := none
  price : Option ℚ := none
  quantity : Option Int := none
deriving DecidableEq

structure SalesItem where
  parsedDate : Option (Nat × Nat × Nat) := none
  priceWithDisc : Option ℚ := none
  warehouseName : Option String := none
  regionName : Option String := none
  supplierArticle : Option String := none
  finProducts : List OzonProduct := []
  warehouse_name : Option String := none
  cluster_to : String := ""
  city : String := ""
  products : List OzonProduct := []
deriving DecidableEq

def wbPrice (i : SalesItem) : ℚ := i.priceWithDisc.getD 0

def wbWh (i : SalesItem) : String := i.warehouseName.getD "Unknown"

def wbRegion (i : SalesItem) : String := i.regionName.getD "Unknown"

def wbArticle (i : SalesItem) : String := i.supplierArticle.getD "Unknown"

def ozonPrice (i : SalesItem) : ℚ :=
  (i.finProducts.map fun p => p.price.getD 0 * ((p.quantity.getD 1 : Int) : ℚ)).sum

def ozonWh (i : SalesItem) : String := i.warehouse_name.getD "Unknown"

def ozonRegion (i : SalesItem) : String :=
  if i.cluster_to ≠ "" then i.cluster_to
  else if i.city ≠ "" then i.city
  else "Unknown"

def primWh (mp : MP) (i : SalesItem) : String :=
  match mp with
  | MP.wb => wbWh i
  | MP.ozon => ozonWh i

def primRegion (mp : MP) (i : SalesItem) : String :=
  match mp with
  | MP.wb => wbRegion i
  | MP.ozon => ozonRegion i

def itemPrice (mp : MP) (i : SalesItem) : ℚ :=
  match mp with
  | MP.wb => wbPrice i
  | MP.ozon => ozonPrice i

structure SubBucket where
  count : Int
  revenue : ℚ
deriving DecidableEq

structure WhBucket where
  count : Int
  revenue : ℚ
  by_product : List (String × SubBucket)
deriving DecidableEq

structure ProdBucket where
  count : Int
  revenue : ℚ
  by_warehouse : List (String × SubBucket)
deriving DecidableEq

structure AggState where
  total_revenue : ℚ
  orders_count : Int
  by_warehouse : List (String × WhBucket)
  by_region : List (String × SubBucket)
  by_product : List (String × ProdBucket)
deriving DecidableEq

def initAggState : AggState :=
  { total_revenue := 0, orders_count := 0, by_warehouse := [],
    by_region := [], by_product := [] }

def bumpSub (price : ℚ) (cnt : Int) (l : List (String × SubBucket))
    (k : String) : List (String × SubBucket) :=
  bump l k ⟨0, 0⟩ fun sb => ⟨sb.count + cnt, sb.revenue + price⟩

def stepWb (s : AggState) (i : SalesItem) : AggState :=
  let price := wbPrice i
  let wh := wbWh i
  let region := wbRegion i
  let article := wbArticle i
  { total_revenue := s.total_revenue + price
    orders_count := s.orders_count + 1
    by_warehouse := bump s.by_warehouse wh ⟨0, 0, []⟩ fun b =>
      { count := b.count + 1, revenue := b.revenue + price,
        by_product := bumpSub price 1 b.by_product article }
    by_region := bumpSub price 1 s.by_region region
    by_product := bump s.by_product article ⟨0, 0, []⟩ fun b =>
      { count := b.count + 1, revenue := b.revenue + price,
        by_warehouse := bumpSub price 1 b.by_warehouse wh } }

def stepOzonProducts (wh : String) (bp : List (String × ProdBucket))
    (prods : List OzonProduct) : List (String × ProdBucket) :=
  prods.foldl
    (fun acc p =>
      let a := p.offer_id.getD "Unknown"
      let q := p.quantity.getD 1
      let rev := p.price.getD 0 * ((q : Int) : ℚ)
      bump acc a ⟨0, 0, []⟩ fun b =>
        { count := b.count + q, revenue := b.revenue + rev,
          by_warehouse := bumpSub rev q b.by_warehouse wh })
    bp

def stepOzon (s : AggState) (i : SalesItem) : AggState :=
  let price := ozonPrice i
  let wh := ozonWh i
  let region := ozonRegion i
  { total_revenue := s.total_revenue + price
    orders_count := s.orders_count + 1
    by_warehouse := bump s.by_warehouse wh ⟨0, 0, []⟩ fun b =>
      { count := b.count + 1, revenue := b.revenue + price,
        by_product := b.by_product }
    by_region := bumpSub price 1 s.by_region region
    by_product := stepOzonProducts wh s.by_product i.products }

def stepOf (mp : MP) : AggState → SalesItem → AggState :=
  match mp with
  | MP.wb => stepWb
  | MP.ozon => stepOzon

def runAgg (mp : MP) (sales : List SalesItem) : AggState :=
  sales.foldl (stepOf mp) initAggState

structure AggResult where
  revenue : ℚ
  orders_count : Int
  sales_by_warehouse : List (String × WhBucket)
  sales_by_region : List (String × SubBucket)
  sales_by_product : List (String × ProdBucket)
deriving DecidableEq

def aggregate_sales_data (mp : MP) (sales : List SalesItem) : AggResult :=
  let s := runAgg mp sales
  { revenue := s.total_revenue
    orders_count := s.orders_count
    sales_by_warehouse :=
      ((sortDesc (fun x => x.2.revenue) s.by_warehouse).take 15).map fun x =>
        (x.1, { x.2 with
                  by_product := sortDesc (fun y => ((y.2.count : Int) : ℚ))
                    x.2.by_product })
    sales_by_region := (sortDesc (fun x => x.2.revenue) s.by_region).take 15
    sales_by_product :=
      (sortDesc (fun x => x.2.revenue) s.by_product).map fun x =>
        (x.1, { x.2 with
                  by_warehouse := sortDesc (fun y => y.2.revenue)
                    x.2.by_warehouse }) }

structure StockWh where
  name : String
  products : List (String × Int)
deriving DecidableEq

def priorityClusters : MP → List String
  | MP.wb => ["Центральный", "Северо-Западный", "Приволжский", "Уральский"]
  | MP.ozon => ["Москва, МО и Дальние регионы", "Санкт-Петербург и СЗО",
                "Казань", "Краснодар"]

def clusterOf (mp : MP) (wh : StockWh) : String :=
  get_warehouse_cluster wh.name mp

def clusterKeys (mp : MP) (whs : List StockWh) : List String :=
  firstKeys (whs.map (clusterOf mp))

def whsOfCluster (mp : MP) (whs : List StockWh) (c : String) : List StockWh :=
  whs.filter fun wh => clusterOf mp wh = c

def sortedClusters (mp : MP) (whs : List StockWh) : List String :=
  (priorityClusters mp).filter (fun c => c ∈ clusterKeys mp whs) ++
    (sortAscStr (clusterKeys mp whs)).filter (fun c => c ∉ priorityClusters mp)

structure ClusterInfo where
  name : String
  start_index : Int
  warehouse_count : Int
  total_stock : Int
  end_index : Int
deriving DecidableEq

structure ChartSeries where
  label : String
  data : List Int
  backgroundColor : String
deriving DecidableEq

structure ChartData where
  labels : List String
  datasets : List ChartSeries
  clusters : List ClusterInfo
deriving DecidableEq

def totalStockOf (grp : List StockWh) : Int :=
  (grp.map fun wh => (wh.products.map Prod.snd).sum).sum

def mkInfos (mp : MP) (whs : List StockWh) : List String → Int → List ClusterInfo
  | [], _ => []
  | c :: rest, start =>
    let grp := whsOfCluster mp whs c
    { name := c, start_index := start, warehouse_count := grp.length,
      total_stock := totalStockOf grp,
      end_index := start + grp.length - 1 } :: mkInfos mp whs rest (start + grp.length)

def chartLabels (mp : MP) (whs : List StockWh) : List String :=
  ((sortedClusters mp whs).map fun c => (whsOfCluster mp whs c).map (·.name)).flatten

def seriesValues (mp : MP) (whs : List StockWh) (a : String) : List Int :=
  ((sortedClusters mp whs).map fun c =>
    (whsOfCluster mp whs c).map fun wh => (lookupA a wh.products).getD 0).flatten

def mkSeries (pyHash : String → Nat) (mp : MP) (whs : List StockWh)
    (a : String) : ChartSeries :=
  { label := a, data := seriesValues mp whs a,
    backgroundColor := get_article_color pyHash a }

def mkChart (pyHash : String → Nat) (mp : MP) (whs : List StockWh)
    (arts : List String) : ChartData :=
  { labels := chartLabels mp whs
    datasets := (arts.map (mkSeries pyHash mp whs)).filter fun ds =>
      ds.data.any fun q => decide (0 < q)
    clusters := mkInfos mp whs (sortedClusters mp whs) 0 }

def buildChart (pyHash : String → Nat) (mp : MP) (whs : List StockWh)
    (arts : List String) : Option ChartData :=
  if whs.isEmpty || arts.isEmpty then none
  else some (mkChart pyHash mp whs arts)

def filterPeriod (p : Period) (today : Int) (rs : List SalesItem) :
    List SalesItem :=
  rs.filter fun r =>
    match r.parsedDate with
    | none => false
    | some (y, m, d) => includeInWindow p today ((daysFromCivil y m d : Nat) : Int)

structure MpRaw where
  total_stock_value : ℚ := 0
  raw_orders : List SalesItem := []
deriving DecidableEq

structure PeriodSlot where
  wb : Option AggResult := none
  ozon : Option AggResult := none
deriving DecidableEq

structure Summary where
  wb_stocks : ℚ
  ozon_stocks : ℚ
  total_stocks : ℚ
  total_sales_today : ℚ
deriving DecidableEq

structure Dashboard where
  summary : Summary
  wb_status : String
  ozon_status : String
  period_data : List (String × PeriodSlot)
deriving DecidableEq

def setWbAgg (pd : List (String × PeriodSlot)) (k : String) (a : AggResult) :
    List (String × PeriodSlot) :=
  bump pd k {} fun slot => { slot with wb := some a }

def setOzonAgg (pd : List (String × PeriodSlot)) (k : String) (a : AggResult) :
    List (String × PeriodSlot) :=
  bump pd k {} fun slot => { slot with ozon := some a }

def prepare (today : Int) (wb_data ozon_data : Option MpRaw) : Dashboard :=
  let pd0 : List (String × PeriodSlot) :=
    periods_config.map fun p => (p.key, {})
  let wbStocks : ℚ := match wb_data with
    | none => 0
    | some w => w.total_stock_value
  let pd1 := match wb_data with
    | none => pd0
    | some w =>
      periods_config.foldl
        (fun pd p =>
          setWbAgg pd p.key
            (aggregate_sales_data MP.wb (filterPeriod p today w.raw_orders)))
        pd0
  let ozonStocks : ℚ := match ozon_data with
    | none => 0
    | some z => z.total_stock_value
  let pd2 := match ozon_data with
    | none => pd1
    | some z =>
      periods_config.foldl
        (fun pd p =>
          setOzonAgg pd p.key
            (aggregate_sales_data MP.ozon (filterPeriod p today z.raw_orders)))
        pd1
  let todaySlot := (lookupA "today" pd2).getD {}
  { summary :=
      { wb_stocks := wbStocks
        ozon_stocks := ozonStocks
        total_stocks := wbStocks + ozonStocks
        total_sales_today :=
          (todaySlot.wb.map (·.revenue)).getD 0 +
            (todaySlot.ozon.map (·.revenue)).getD 0 }
    wb_status := if wb_data.isSome then "Online" else "No Data"
    ozon_status := if ozon_data.isSome then "Online" else "No Data"
    period_data := pd2 }

def whTot (s : AggState) (k : String) : Int × ℚ :=
  match lookupA k s.by_warehouse with
  | some b => (b.count, b.revenue)
  | none => (0, 0)

def regTot (s : AggState) (k : String) : Int × ℚ :=
  match lookupA k s.by_region with
  | some b => (b.count, b.revenue)
  | none => (0, 0)

def prodTot (s : AggState) (k : String) : Int × ℚ :=
  match lookupA k s.by_product with
  | some b => (b.count, b.revenue)
  | none => (0, 0)

def stWhCount (s : AggState) : Int := (s.by_warehouse.map fun x => x.2.count).sum

def stRegCount (s : AggState) : Int := (s.by_region.map fun x => x.2.count).sum

def stProdCount (s : AggState) : Int := (s.by_product.map fun x => x.2.count).sum

def outWhCount (r : AggResult) : Int :=
  (r.sales_by_warehouse.map fun x => x.2.count).sum

def outRegCount (r : AggResult) : Int :=
  (r.sales_by_region.map fun x => x.2.count).sum

def outProdCount (r : AggResult) : Int :=
  (r.sales_by_product.map fun x => x.2.count).sum

def ozonQtySum (sales : List SalesItem) : Int :=
  (sales.map fun i => (i.products.map fun p => p.quantity.getD 1).sum).sum

def exWbItem : SalesItem :=
  { warehouseName := some "W1", regionName := some "R1" }

def subCount (l : List (String × SubBucket)) : Int :=
  (l.map fun x => x.2.count).sum

def subRev (l : List (String × SubBucket)) : ℚ :=
  (l.map fun x => x.2.revenue).sum

def whAdditive (b : WhBucket) : Prop :=
  b.count = subCount b.by_product ∧ b.revenue = subRev b.by_product

def prodAdditive (b : ProdBucket) : Prop :=
  b.count = subCount b.by_warehouse ∧ b.revenue = subRev b.by_warehouse

def exWhBucket : WhBucket :=
  { count := 2, revenue := 0, by_product := [("Unknown", ⟨2, 0⟩)] }

def todayPeriod : Period := { key := "today", days := 0, label := "Сегодня" }

def exChartWhs : List StockWh :=
  [{ name := "Коледино", products := [("SF0125", 10)] },
   { name := "Невинномысск", products := [("SF0125", 5)] }]

def exChartArts : List String := ["SF0125"]

/-! ## Theorems -/

theorem lowerPairs_snd_not_fst :
    (lowerPairs.all fun p => (lowerPairs.find? (fun q => q.1 == p.2)).isNone) = true := by
  decide

theorem pyLowerChar_idem (c : Char) : pyLowerChar (pyLowerChar c) = pyLowerChar c := by
  unfold pyLowerChar
  cases h : lowerPairs.find? (fun p => p.1 == c) with
  | none => simp [h]
  | some p =>
    have hp : p ∈ lowerPairs := List.mem_of_find?_eq_some h
    have := List.all_eq_true.mp lowerPairs_snd_not_fst p hp
    simp only [Option.map_some', Option.getD_some]
    cases h2 : lowerPairs.find? (fun q => q.1 == p.2) with
    | none => simp
    | some q => rw [h2] at this; simp at this

theorem strLower_idem (s : String) : strLower (strLower s) = strLower s := by
  unfold strLower
  have hcomp : pyLowerChar ∘ pyLowerChar = pyLowerChar := funext pyLowerChar_idem
  simp [List.map_map, hcomp]

theorem lookupA_bump_self (l : List (String × β)) (k : String) (init : β) (f : β → β) :
    lookupA k (bump l k init f) = some (f ((lookupA k l).getD init)) := by
  induction l with
  | nil => simp [bump, lookupA]
  | cons hd t ih =>
    obtain ⟨k', v⟩ := hd
    by_cases h : k' = k
    · simp [bump, lookupA, h]
    · simp [bump, lookupA, h, ih]

theorem lookupA_bump_ne (l : List (String × β)) (k k' : String) (init : β) (f : β → β)
    (h : k' ≠ k) : lookupA k' (bump l k init f) = lookupA k' l := by
  induction l with
  | nil => simp [bump, lookupA, Ne.symm h]
  | cons hd t ih =>
    obtain ⟨k₀, v⟩ := hd
    by_cases h0 : k₀ = k
    · subst h0
      simp [bump, lookupA, Ne.symm h]
    · by_cases h1 : k₀ = k'
      · simp [bump, lookupA, h0, h1, h]
      · simp [bump, lookupA, h0, h1, ih]

theorem keys_bump (l : List (String × β)) (k : String) (init : β) (f : β → β) :
    (bump l k init f).map Prod.fst =
      if k ∈ l.map Prod.fst then l.map Prod.fst else l.map Prod.fst ++ [k] := by
  induction l with
  | nil => simp [bump]
  | cons hd t ih =>
    obtain ⟨k', v⟩ := hd
    by_cases h : k' = k
    · simp [bump, h]
    · by_cases hc : k ∈ t.map Prod.fst
      · simp [bump, h, Ne.symm h, hc, ih]
      · simp [bump, h, Ne.symm h, hc, ih]

theorem length_bump (l : List (String × β)) (k : String) (init : β) (f : β → β) :
    (bump l k init f).length =
      if k ∈ l.map Prod.fst then l.length else l.length + 1 := by
  have h := congrArg List.length (keys_bump l k init f)
  simp only [List.length_map] at h
  rw [h]
  split <;> simp

theorem sum_map_bump [AddCommGroup M] (l : List (String × β)) (k : String)
    (init : β) (f : β → β) (g : β → M) (hinit : g init = 0) :
    ((bump l k init f).map (fun x => g x.2)).sum =
      (l.map (fun x => g x.2)).sum
        + (g (f ((lookupA k l).getD init)) - g ((lookupA k l).getD init)) := by
  induction l with
  | nil => simp [bump, lookupA, hinit]
  | cons hd t ih =>
    obtain ⟨k', v⟩ := hd
    by_cases h : k' = k
    · simp only [bump, if_pos h, lookupA, List.map_cons, List.sum_cons,
        Option.getD_some]
      abel
    · simp only [bump, if_neg h, lookupA, List.map_cons, List.sum_cons, ih]
      abel

theorem all_bump {P : β → Prop} (l : List (String × β)) (k : String) (init : β)
    (f : β → β) (h : ∀ x ∈ l, P x.2) (hstep : ∀ b, P b → P (f b))
    (hini : P (f init)) : ∀ x ∈ bump l k init f, P x.2 := by
  induction l with
  | nil =>
    intro x hx
    simp [bump] at hx
    subst hx; exact hini
  | cons hd t ih =>
    obtain ⟨k', v⟩ := hd
    intro x hx
    by_cases hk : k' = k
    · simp only [bump, if_pos hk, List.mem_cons] at hx
      rcases hx with rfl | hx
      · exact hstep v (h (k', v) (List.mem_cons_self _ _))
      · exact h x (List.mem_cons_of_mem _ hx)
    · simp only [bump, if_neg hk, List.mem_cons] at hx
      rcases hx with rfl | hx
      · exact h (k', v) (List.mem_cons_self _ _)
      · exact ih (fun y hy => h y (List.mem_cons_of_mem _ hy)) x hx

theorem perm_insDesc {α : Type} (key : α → ℚ) (x : α) (l : List α) : List.Perm (insDesc key x l) (x :: l) := by
  induction l with
  | nil => rfl
  | cons y ys ih =>
    by_cases h : key y ≤ key x
    · simp [insDesc, h]
    · simp only [insDesc, if_neg h]
      exact (ih.cons y).trans (List.Perm.swap x y ys)

theorem perm_sortDesc {α : Type} (key : α → ℚ) (l : List α) : List.Perm (sortDesc key l) l := by
  induction l with
  | nil => rfl
  | cons x xs ih => exact (perm_insDesc key x (sortDesc key xs)).trans (ih.cons x)

theorem pairwise_insDesc {α : Type} (key : α → ℚ) (x : α) (l : List α)
    (h : l.Pairwise (fun a b => key b ≤ key a)) :
    (insDesc key x l).Pairwise (fun a b => key b ≤ key a) := by
  induction l with
  | nil => simp [insDesc]
  | cons y ys ih =>
    rcases List.pairwise_cons.mp h with ⟨hy, hys⟩
    by_cases hxy : key y ≤ key x
    · simp only [insDesc, if_pos hxy]
      refine List.pairwise_cons.mpr ⟨?_, h⟩
      intro z hz
      rcases List.mem_cons.mp hz with rfl | hz
      · exact hxy
      · exact le_trans (hy z hz) hxy
    · simp only [insDesc, if_neg hxy]
      refine List.pairwise_cons.mpr ⟨?_, ih hys⟩
      intro z hz
      have hz' := (perm_insDesc key x ys).mem_iff.mp hz
      rcases List.mem_cons.mp hz' with rfl | hz''
      · exact le_of_lt (lt_of_not_le hxy)
      · exact hy z hz''

theorem pairwise_sortDesc {α : Type} (key : α → ℚ) (l : List α) :
    (sortDesc key l).Pairwise (fun a b => key b ≤ key a) := by
  induction l with
  | nil => simp [sortDesc]
  | cons x xs ih => exact pairwise_insDesc key x _ ih

theorem filter_insDesc {α : Type} (key : α → ℚ) (x : α) (l : List α) (q : ℚ)
    (h : l.Pairwise (fun a b => key b ≤ key a)) :
    (insDesc key x l).filter (fun a => decide (key a = q)) =
      (x :: l).filter (fun a => decide (key a = q)) := by
  induction l with
  | nil => simp [insDesc]
  | cons y ys ih =>
    rcases List.pairwise_cons.mp h with ⟨hy, hys⟩
    by_cases hxy : key y ≤ key x
    · simp only [insDesc, if_pos hxy]
    · simp only [insDesc, if_neg hxy]
      have hlt : key x < key y := lt_of_not_le hxy
      have ihy := ih hys
      by_cases hxq : key x = q
      · have hyq : ¬ key y = q := by
          intro hyq
          rw [hxq] at hlt
          rw [hyq] at hlt
          exact lt_irrefl q hlt
        simp [List.filter_cons, hxq, hyq, ihy]
      · by_cases hyq : key y = q <;> simp [List.filter_cons, hxq, hyq, ihy]

theorem filter_sortDesc {α : Type} (key : α → ℚ) (l : List α) (q : ℚ) :
    (sortDesc key l).filter (fun a => decide (key a = q)) =
      l.filter (fun a => decide (key a = q)) := by
  induction l with
  | nil => rfl
  | cons x xs ih =>
    have h := filter_insDesc key x (sortDesc key xs) q (pairwise_sortDesc key xs)
    rw [sortDesc, h, List.filter_cons, List.filter_cons, ih]

theorem length_sortDesc {α : Type} (key : α → ℚ) (l : List α) : (sortDesc key l).length = l.length :=
  (perm_sortDesc key l).length_eq

theorem sum_map_sortDesc {α : Type} (key : α → ℚ) {M : Type} [AddCommMonoid M] (g : α → M) (l : List α) :
    ((sortDesc key l).map g).sum = (l.map g).sum :=
  ((perm_sortDesc key l).map g).sum_eq

theorem mem_sortDesc {α : Type} (key : α → ℚ) {x : α} {l : List α} (h : x ∈ sortDesc key l) : x ∈ l :=
  (perm_sortDesc key l).mem_iff.mp h

theorem perm_insAscStr (x : String) (l : List String) : List.Perm (insAscStr x l) (x :: l) := by
  induction l with
  | nil => rfl
  | cons y ys ih =>
    by_cases h : charsLt x.data y.data
    · simp [insAscStr, h]
    · simp only [insAscStr, if_neg h]
      exact (ih.cons y).trans (List.Perm.swap x y ys)

theorem perm_sortAscStr (l : List String) : List.Perm (sortAscStr l) l := by
  induction l with
  | nil => rfl
  | cons x xs ih => exact (perm_insAscStr x (sortAscStr xs)).trans (ih.cons x)

theorem findCluster_eq_some_iff (tbl : List (String × List String))
    (name : List Char) (c : String) :
    findCluster tbl name = some c ↔ firstMatching tbl name c := by
  induction tbl with
  | nil =>
    simp only [findCluster, firstMatching]
    constructor
    · intro h; cases h
    · rintro ⟨pre, e, post, h, -⟩
      exact absurd h (by simp)
  | cons e rest ih =>
    by_cases hm : clusterMatches e name
    · simp only [findCluster, if_pos hm]
      constructor
      · rintro h
        injection h with h
        exact ⟨[], e, rest, by simp, h, hm, by simp⟩
      · rintro ⟨pre, e2, post, heq, hname, hmatch, hpre⟩
        cases pre with
        | nil =>
          simp only [List.nil_append, List.cons.injEq] at heq
          rw [← heq.1] at hname
          rw [hname]
        | cons p ps =>
          simp only [List.cons_append, List.cons.injEq] at heq
          have := hpre p (by simp)
          rw [← heq.1] at this
          rw [hm] at this
          cases this
    · simp only [findCluster, if_neg hm, ih]
      constructor
      · rintro ⟨pre, e2, post, heq, hname, hmatch, hpre⟩
        refine ⟨e :: pre, e2, post, by rw [heq]; simp, hname, hmatch, ?_⟩
        intro e3 he3
        rcases List.mem_cons.mp he3 with rfl | he3
        · exact Bool.eq_false_iff.mpr hm
        · exact hpre e3 he3
      · rintro ⟨pre, e2, post, heq, hname, hmatch, hpre⟩
        cases pre with
        | nil =>
          simp only [List.nil_append, List.cons.injEq] at heq
          rw [← heq.1] at hmatch
          rw [hmatch] at hm
          cases hm rfl
        | cons p ps =>
          simp only [List.cons_append, List.cons.injEq] at heq
          refine ⟨ps, e2, post, heq.2, hname, hmatch, ?_⟩
          intro e3 he3
          exact hpre e3 (List.mem_cons_of_mem _ he3)

theorem findCluster_eq_none_iff (tbl : List (String × List String))
    (name : List Char) :
    findCluster tbl name = none ↔ ∀ e ∈ tbl, clusterMatches e name = false := by
  induction tbl with
  | nil => simp [findCluster]
  | cons e rest ih =>
    by_cases hm : clusterMatches e name
    · simp [findCluster, hm]
    · simp only [findCluster, if_neg hm, ih]
      constructor
      · intro h e2 he2
        rcases List.mem_cons.mp he2 with rfl | he2
        · exact Bool.eq_false_iff.mpr hm
        · exact h e2 he2
      · intro h e2 he2
        exact h e2 (List.mem_cons_of_mem _ he2)

theorem fallback_not_cluster_name :
    ((clusterTable MP.wb).all fun e => !(e.1 == "Прочие")) = true ∧
      ((clusterTable MP.ozon).all fun e => !(e.1 == "Прочие")) = true := by
  constructor <;> decide

theorem classifier_total_first_match_fallback (name : String) (mp : MP) :
    (∀ c : String,
      get_warehouse_cluster name mp = c ↔
        (firstMatching (clusterTable mp) (strLower name).data c ∨
          (c = "Прочие" ∧
            ∀ e ∈ clusterTable mp,
              clusterMatches e (strLower name).data = false))) ∧
    (get_warehouse_cluster name mp = "Прочие" ↔
      ∀ e ∈ clusterTable mp, clusterMatches e (strLower name).data = false) := by
  have hfb : ∀ e ∈ clusterTable mp, e.1 ≠ "Прочие" := by
    intro e he
    cases mp with
    | wb =>
      have := List.all_eq_true.mp fallback_not_cluster_name.1 e he
      simpa using this
    | ozon =>
      have := List.all_eq_true.mp fallback_not_cluster_name.2 e he
      simpa using this
  have hmain : get_warehouse_cluster name mp =
      (findCluster (clusterTable mp) (strLower name).data).getD "Прочие" := rfl
  cases h : findCluster (clusterTable mp) (strLower name).data with
  | none =>
    have hnm := (findCluster_eq_none_iff _ _).mp h
    rw [hmain, h]
    constructor
    · intro c
      constructor
      · intro hc
        exact Or.inr ⟨hc.symm, hnm⟩
      · rintro (hfm | ⟨hc, -⟩)
        · have h2 := (findCluster_eq_some_iff _ _ _).mpr hfm
          rw [h] at h2
          cases h2
        · exact hc.symm
    · exact iff_of_true rfl hnm
  | some c0 =>
    have hfm0 := (findCluster_eq_some_iff _ _ _).mp h
    have hnotnm : ¬ ∀ e ∈ clusterTable mp,
        clusterMatches e (strLower name).data = false := by
      intro hnm
      have := (findCluster_eq_none_iff _ _).mpr hnm
      rw [h] at this
      cases this
    rw [hmain, h]
    constructor
    · intro c
      constructor
      · intro hc
        rw [← hc]
        exact Or.inl hfm0
      · rintro (hfm | ⟨hc, hnm⟩)
        · have h2 := (findCluster_eq_some_iff _ _ _).mpr hfm
          rw [h] at h2
          exact Option.some.inj h2
        · exact absurd hnm hnotnm
    · constructor
      · intro hc0
        obtain ⟨pre, e, post, heq, hname, -, -⟩ := hfm0
        have he : e ∈ clusterTable mp := by rw [heq]; simp
        exact absurd (hname.trans hc0) (hfb e he)
      · intro hnm
        exact absurd hnm hnotnm

theorem classifier_total_first_match_fallback_witness :
    (get_warehouse_cluster "СЦ Абакан" MP.wb = "Прочие" ↔
      ∀ e ∈ clusterTable MP.wb,
        clusterMatches e (strLower "СЦ Абакан").data = false) ∧
    get_warehouse_cluster "Коледино" MP.wb = "Центральный" ∧
    (∀ e ∈ clusterTable MP.wb,
      clusterMatches e (strLower "СЦ Абакан").data = false) :=
  ⟨(classifier_total_first_match_fallback "СЦ Абакан" MP.wb).2,
   by decide, by decide⟩

theorem classifier_case_insensitive (mp : MP) (n : String) :
    get_warehouse_cluster n mp = get_warehouse_cluster (strLower n) mp ∧
    ∀ n2 : String, strLower n = strLower n2 →
      get_warehouse_cluster n mp = get_warehouse_cluster n2 mp := by
  constructor
  · unfold get_warehouse_cluster
    rw [strLower_idem]
  · intro n2 h
    unfold get_warehouse_cluster
    rw [h]

theorem classifier_case_insensitive_witness :
    strLower "КОЛЕДИНО" = strLower "Коледино" ∧
    get_warehouse_cluster "КОЛЕДИНО" MP.wb =
      get_warehouse_cluster "Коледино" MP.wb ∧
    get_warehouse_cluster "Коледино" MP.wb = "Центральный" :=
  ⟨by decide,
   (classifier_case_insensitive MP.wb "КОЛЕДИНО").2 "Коледино" (by decide),
   by decide⟩

theorem filterPeriod_singleton (p : Period) (t : Int) (r : SalesItem)
    (y m d : Nat) (hr : r.parsedDate = some (y, m, d)) :
    filterPeriod p t [r] =
      if includeInWindow p t ((daysFromCivil y m d : Nat) : Int) then [r]
      else [] := by
  simp only [filterPeriod, List.filter_cons, List.filter_nil, hr]

theorem window_correctness :
    (∀ p ∈ periods_config,
      (p.exact_day = false →
        (∀ t d : Int, includeInWindow p t d = true ↔ t - p.days ≤ d) ∧
        ∀ t : Int, includeInWindow p t t = true) ∧
      (p.key = "yesterday" →
        p.exact_day = true ∧ p.days = 1 ∧
        (∀ t d : Int, includeInWindow p t d = true ↔ d = t - 1) ∧
        ∀ t : Int, includeInWindow p t t = false)) ∧
    (∀ r : SalesItem, r.parsedDate = some (2024, 6, 9) →
      ∀ p ∈ periods_config,
        filterPeriod p ((daysFromCivil 2024 6 10 : Nat) : Int) [r] =
          if p.key = "today" then [] else [r]) := by
  have hday : daysFromCivil 2024 6 9 + 1 = daysFromCivil 2024 6 10 := by decide
  constructor
  · intro p hp
    simp only [periods_config, List.mem_cons, List.not_mem_nil, or_false] at hp
    rcases hp with rfl | rfl | rfl | rfl | rfl
    · refine ⟨fun _ => ⟨fun t d => ?_, fun t => ?_⟩, fun hk => absurd hk (by decide)⟩
      · simp [includeInWindow]
      · simp [includeInWindow] <;> omega
    · refine ⟨fun hex => absurd hex (by decide),
        fun _ => ⟨rfl, rfl, fun t d => ?_, fun t => ?_⟩⟩
      · simp [includeInWindow]
      · simp [includeInWindow] <;> omega
    · refine ⟨fun _ => ⟨fun t d => ?_, fun t => ?_⟩, fun hk => absurd hk (by decide)⟩
      · simp [includeInWindow]
      · simp [includeInWindow] <;> omega
    · refine ⟨fun _ => ⟨fun t d => ?_, fun t => ?_⟩, fun hk => absurd hk (by decide)⟩
      · simp [includeInWindow]
      · simp [includeInWindow] <;> omega
    · refine ⟨fun _ => ⟨fun t d => ?_, fun t => ?_⟩, fun hk => absurd hk (by decide)⟩
      · simp [includeInWindow]
      · simp [includeInWindow] <;> omega
  · intro r hr p hp
    simp only [periods_config, List.mem_cons, List.not_mem_nil, or_false] at hp
    rcases hp with rfl | rfl | rfl | rfl | rfl <;>
        rw [filterPeriod_singleton _ _ _ _ _ _ hr]
    · have hval : includeInWindow ⟨"today", 0, false, "Сегодня"⟩
          ((daysFromCivil 2024 6 10 : Nat) : Int)
          ((daysFromCivil 2024 6 9 : Nat) : Int) = false := by
        simp [includeInWindow] <;> omega
      rw [hval]
      simp
    · have hval : includeInWindow ⟨"yesterday", 1, true, "Вчера"⟩
          ((daysFromCivil 2024 6 10 : Nat) : Int)
          ((daysFromCivil 2024 6 9 : Nat) : Int) = true := by
        simp [includeInWindow] <;> omega
      rw [hval]
      rw [if_pos rfl, if_neg (by decide : ¬ ("yesterday" = "today"))]
    · have hval : includeInWindow ⟨"days_3", 2, false, "3 дня"⟩
          ((daysFromCivil 2024 6 10 : Nat) : Int)
          ((daysFromCivil 2024 6 9 : Nat) : Int) = true := by
        simp [includeInWindow] <;> omega
      rw [hval]
      rw [if_pos rfl, if_neg (by decide : ¬ ("days_3" = "today"))]
    · have hval : includeInWindow ⟨"days_7", 6, false, "7 дней"⟩
          ((daysFromCivil 2024 6 10 : Nat) : Int)
          ((daysFromCivil 2024 6 9 : Nat) : Int) = true := by
        simp [includeInWindow] <;> omega
      rw [hval]
      rw [if_pos rfl, if_neg (by decide : ¬ ("days_7" = "today"))]
    · have hval : includeInWindow ⟨"days_30", 29, false, "30 дней"⟩
          ((daysFromCivil 2024 6 10 : Nat) : Int)
          ((daysFromCivil 2024 6 9 : Nat) : Int) = true := by
        simp [includeInWindow] <;> omega
      rw [hval]
      rw [if_pos rfl, if_neg (by decide : ¬ ("days_30" = "today"))]

theorem window_correctness_witness :
    ((⟨"days_7", 6, false, "7 дней"⟩ : Period) ∈ periods_config ∧
      (includeInWindow ⟨"days_7", 6, false, "7 дней"⟩ 10 4 = true ↔
        (10 : Int) - 6 ≤ 4)) ∧
    filterPeriod ⟨"yesterday", 1, true, "Вчера"⟩
        ((daysFromCivil 2024 6 10 : Nat) : Int)
        [{ parsedDate := some (2024, 6, 9) }] =
      [{ parsedDate := some (2024, 6, 9) }] := by
  constructor
  · exact ⟨by decide,
      ((window_correctness.1 _ (by decide)).1 rfl).1 10 4⟩
  · have h := window_correctness.2 { parsedDate := some (2024, 6, 9) } rfl
      ⟨"yesterday", 1, true, "Вчера"⟩ (by decide)
    simpa using h

theorem colorizer_determinism :
    (∀ (h1 h2 : String → Nat) (a : String),
      ((lookupA (strUpper a) color_map).isSome = true ∨
        isPrefixB "FSF".data (strUpper a).data = true ∨
        isPrefixB "SF".data (strUpper a).data = true ∨
        isPrefixB "SM".data (strUpper a).data = true) →
      get_article_color h1 a = get_article_color h2 a) ∧
    ∀ h : String → Nat, get_article_color h "SF0125" = "#614701" := by
  constructor
  · intro h1 h2 a hcase
    simp only [get_article_color]
    cases hm : lookupA (strUpper a) color_map with
    | some c => rfl
    | none =>
      simp only [Option.getD_none]
      by_cases hf : isPrefixB "FSF".data (strUpper a).data
      · simp [hf]
      · by_cases hsf : isPrefixB "SF".data (strUpper a).data
        · simp [hf, hsf]
        · by_cases hsm : isPrefixB "SM".data (strUpper a).data
          · simp [hf, hsf, hsm]
          · simp [hm, hf, hsf, hsm] at hcase
  · intro h
    rfl

theorem colorizer_determinism_witness :
    (lookupA (strUpper "SF0125") color_map).isSome = true ∧
    get_article_color (fun _ => 0) "SF0125" =
      get_article_color (fun _ => 1) "SF0125" ∧
    get_article_color (fun _ => 0) "SF0125" = "#614701" :=
  ⟨by decide,
   colorizer_determinism.1 (fun _ => 0) (fun _ => 1) "SF0125"
     (Or.inl (by decide)),
   colorizer_determinism.2 _⟩

theorem colorizer_cross_run_counterexample :
    get_article_color (fun _ => 0) "QQQ" ≠
      get_article_color (fun _ => 1) "QQQ" := by
  decide

theorem runAgg_append_one (mp : MP) (sales : List SalesItem) (i : SalesItem) :
    runAgg mp (sales ++ [i]) = stepOf mp (runAgg mp sales) i := by
  unfold runAgg
  rw [List.foldl_append]
  rfl

theorem whTot_stepWb (s : AggState) (i : SalesItem) :
    whTot (stepWb s i) (wbWh i) =
      ((whTot s (wbWh i)).1 + 1, (whTot s (wbWh i)).2 + wbPrice i) := by
  unfold whTot stepWb
  rw [lookupA_bump_self]
  cases h : lookupA (wbWh i) s.by_warehouse <;> simp [h]

theorem regTot_stepWb (s : AggState) (i : SalesItem) :
    regTot (stepWb s i) (wbRegion i) =
      ((regTot s (wbRegion i)).1 + 1, (regTot s (wbRegion i)).2 + wbPrice i) := by
  unfold regTot stepWb bumpSub
  rw [lookupA_bump_self]
  cases h : lookupA (wbRegion i) s.by_region <;> simp [h]

theorem prodTot_stepWb (s : AggState) (i : SalesItem) :
    prodTot (stepWb s i) (wbArticle i) =
      ((prodTot s (wbArticle i)).1 + 1, (prodTot s (wbArticle i)).2 + wbPrice i) := by
  unfold prodTot stepWb
  rw [lookupA_bump_self]
  cases h : lookupA (wbArticle i) s.by_product <;> simp [h]

theorem whTot_stepOzon (s : AggState) (i : SalesItem) :
    whTot (stepOzon s i) (ozonWh i) =
      ((whTot s (ozonWh i)).1 + 1, (whTot s (ozonWh i)).2 + ozonPrice i) := by
  unfold whTot stepOzon
  rw [lookupA_bump_self]
  cases h : lookupA (ozonWh i) s.by_warehouse <;> simp [h]

theorem regTot_stepOzon (s : AggState) (i : SalesItem) :
    regTot (stepOzon s i) (ozonRegion i) =
      ((regTot s (ozonRegion i)).1 + 1, (regTot s (ozonRegion i)).2 + ozonPrice i) := by
  unfold regTot stepOzon bumpSub
  rw [lookupA_bump_self]
  cases h : lookupA (ozonRegion i) s.by_region <;> simp [h]

theorem prodTot_stepOzon_single (s : AggState) (i : SalesItem) (p : OzonProduct)
    (hp : i.products = [p]) :
    prodTot (stepOzon s i) (p.offer_id.getD "Unknown") =
      ((prodTot s (p.offer_id.getD "Unknown")).1 + p.quantity.getD 1,
       (prodTot s (p.offer_id.getD "Unknown")).2 +
         p.price.getD 0 * ((p.quantity.getD 1 : Int) : ℚ)) := by
  unfold prodTot stepOzon stepOzonProducts
  rw [hp]
  simp only [List.foldl_cons, List.foldl_nil]
  rw [lookupA_bump_self]
  cases h : lookupA (p.offer_id.getD "Unknown") s.by_product <;> simp [h]

theorem accumulation_rule :
    (∀ (sales : List SalesItem) (i : SalesItem),
      whTot (runAgg MP.wb (sales ++ [i])) (wbWh i) =
        ((whTot (runAgg MP.wb sales) (wbWh i)).1 + 1,
         (whTot (runAgg MP.wb sales) (wbWh i)).2 + wbPrice i) ∧
      regTot (runAgg MP.wb (sales ++ [i])) (wbRegion i) =
        ((regTot (runAgg MP.wb sales) (wbRegion i)).1 + 1,
         (regTot (runAgg MP.wb sales) (wbRegion i)).2 + wbPrice i) ∧
      prodTot (runAgg MP.wb (sales ++ [i])) (wbArticle i) =
        ((prodTot (runAgg MP.wb sales) (wbArticle i)).1 + 1,
         (prodTot (runAgg MP.wb sales) (wbArticle i)).2 + wbPrice i)) ∧
    (∀ (sales : List SalesItem) (i : SalesItem) (p : OzonProduct),
      whTot (runAgg MP.ozon (sales ++ [{ i with products := [p] }]))
          (ozonWh i) =
        ((whTot (runAgg MP.ozon sales) (ozonWh i)).1 + 1,
         (whTot (runAgg MP.ozon sales) (ozonWh i)).2 + ozonPrice i) ∧
      prodTot (runAgg MP.ozon (sales ++ [{ i with products := [p] }]))
          (p.offer_id.getD "Unknown") =
        ((prodTot (runAgg MP.ozon sales) (p.offer_id.getD "Unknown")).1 +
            p.quantity.getD 1,
         (prodTot (runAgg MP.ozon sales) (p.offer_id.getD "Unknown")).2 +
            p.price.getD 0 * ((p.quantity.getD 1 : Int) : ℚ)) ∧
      (runAgg MP.ozon (sales ++ [{ i with products := [p] }])).orders_count =
        (runAgg MP.ozon sales).orders_count + 1) ∧
    (aggregate_sales_data MP.ozon
        [{ products := [{ offer_id := some "SF0125", quantity := some 3 }] }]
      ).sales_by_product =
      [("SF0125",
        { count := 3, revenue := 0,
          by_warehouse := [("Unknown", ⟨3, 0⟩)] })] := by
  refine ⟨fun sales i => ?_, fun sales i p => ?_, ?_⟩
  · rw [runAgg_append_one]
    exact ⟨whTot_stepWb _ i, regTot_stepWb _ i, prodTot_stepWb _ i⟩
  · rw [runAgg_append_one]
    refine ⟨?_, ?_, rfl⟩
    · have h := whTot_stepOzon (runAgg MP.ozon sales) { i with products := [p] }
      simpa [ozonWh, ozonPrice] using h
    · exact prodTot_stepOzon_single _ _ p rfl
  · with_unfolding_all decide

theorem stepOf_wb : stepOf MP.wb = stepWb := rfl

theorem stepOf_ozon : stepOf MP.ozon = stepOzon := rfl

theorem stWhCount_stepWb (s : AggState) (i : SalesItem) :
    stWhCount (stepWb s i) = stWhCount s + 1 := by
  simp only [stWhCount, stepWb]
  rw [sum_map_bump s.by_warehouse (wbWh i) ⟨0, 0, []⟩ _ (fun b => b.count) rfl]
  dsimp only
  omega

theorem stWhCount_stepOzon (s : AggState) (i : SalesItem) :
    stWhCount (stepOzon s i) = stWhCount s + 1 := by
  simp only [stWhCount, stepOzon]
  rw [sum_map_bump s.by_warehouse (ozonWh i) ⟨0, 0, []⟩ _ (fun b => b.count) rfl]
  dsimp only
  omega

theorem stWhCount_step (mp : MP) (s : AggState) (i : SalesItem) :
    stWhCount (stepOf mp s i) = stWhCount s + 1 := by
  cases mp
  · rw [stepOf_wb]; exact stWhCount_stepWb s i
  · rw [stepOf_ozon]; exact stWhCount_stepOzon s i

theorem stRegCount_stepWb (s : AggState) (i : SalesItem) :
    stRegCount (stepWb s i) = stRegCount s + 1 := by
  simp only [stRegCount, stepWb, bumpSub]
  rw [sum_map_bump s.by_region (wbRegion i) ⟨0, 0⟩ _ (fun b => b.count) rfl]
  dsimp only
  omega

theorem stRegCount_stepOzon (s : AggState) (i : SalesItem) :
    stRegCount (stepOzon s i) = stRegCount s + 1 := by
  simp only [stRegCount, stepOzon, bumpSub]
  rw [sum_map_bump s.by_region (ozonRegion i) ⟨0, 0⟩ _ (fun b => b.count) rfl]
  dsimp only
  omega

theorem stRegCount_step (mp : MP) (s : AggState) (i : SalesItem) :
    stRegCount (stepOf mp s i) = stRegCount s + 1 := by
  cases mp
  · rw [stepOf_wb]; exact stRegCount_stepWb s i
  · rw [stepOf_ozon]; exact stRegCount_stepOzon s i

theorem stProdCount_stepWb (s : AggState) (i : SalesItem) :
    stProdCount (stepWb s i) = stProdCount s + 1 := by
  simp only [stProdCount, stepWb]
  rw [sum_map_bump s.by_product (wbArticle i) ⟨0, 0, []⟩ _ (fun b => b.count) rfl]
  dsimp only
  omega

theorem stProdCount_stepOzonProducts (wh : String)
    (bp : List (String × ProdBucket)) (prods : List OzonProduct) :
    ((stepOzonProducts wh bp prods).map fun x => x.2.count).sum =
      (bp.map fun x => x.2.count).sum +
        (prods.map fun p => p.quantity.getD 1).sum := by
  induction prods generalizing bp with
  | nil => simp [stepOzonProducts]
  | cons p ps ih =>
    unfold stepOzonProducts
    rw [List.foldl_cons]
    have h2 := ih (bump bp (p.offer_id.getD "Unknown") ⟨0, 0, []⟩ fun b =>
      { count := b.count + p.quantity.getD 1,
        revenue := b.revenue + p.price.getD 0 * ((p.quantity.getD 1 : Int) : ℚ),
        by_warehouse := bumpSub
          (p.price.getD 0 * ((p.quantity.getD 1 : Int) : ℚ))
          (p.quantity.getD 1) b.by_warehouse wh })
    unfold stepOzonProducts at h2
    rw [h2, sum_map_bump bp (p.offer_id.getD "Unknown") ⟨0, 0, []⟩ _
      (fun b => b.count) rfl]
    dsimp only
    simp only [List.map_cons, List.sum_cons]
    omega

theorem stProdCount_stepOzon (s : AggState) (i : SalesItem) :
    stProdCount (stepOzon s i) =
      stProdCount s + (i.products.map fun p => p.quantity.getD 1).sum := by
  unfold stProdCount stepOzon
  exact stProdCount_stepOzonProducts _ _ _

theorem stWhCount_foldl (mp : MP) (sales : List SalesItem) (s : AggState) :
    stWhCount (sales.foldl (stepOf mp) s) = stWhCount s + sales.length := by
  induction sales generalizing s with
  | nil => simp only [List.foldl_nil, List.length_nil, Nat.cast_zero, add_zero]
  | cons i t ih =>
    rw [List.foldl_cons, ih, stWhCount_step]
    simp only [List.length_cons]
    push_cast
    omega

theorem stRegCount_foldl (mp : MP) (sales : List SalesItem) (s : AggState) :
    stRegCount (sales.foldl (stepOf mp) s) = stRegCount s + sales.length := by
  induction sales generalizing s with
  | nil => simp only [List.foldl_nil, List.length_nil, Nat.cast_zero, add_zero]
  | cons i t ih =>
    rw [List.foldl_cons, ih, stRegCount_step]
    simp only [List.length_cons]
    push_cast
    omega

theorem stProdCount_foldl_wb (sales : List SalesItem) (s : AggState) :
    stProdCount (sales.foldl stepWb s) = stProdCount s + sales.length := by
  induction sales generalizing s with
  | nil => simp only [List.foldl_nil, List.length_nil, Nat.cast_zero, add_zero]
  | cons i t ih =>
    rw [List.foldl_cons, ih, stProdCount_stepWb]
    simp only [List.length_cons]
    push_cast
    omega

theorem stProdCount_foldl_ozon (sales : List SalesItem) (s : AggState) :
    stProdCount (sales.foldl stepOzon s) = stProdCount s + ozonQtySum sales := by
  induction sales generalizing s with
  | nil => simp only [List.foldl_nil, ozonQtySum, List.map_nil, List.sum_nil,
      add_zero]
  | cons i t ih =>
    rw [List.foldl_cons, ih, stProdCount_stepOzon]
    simp only [ozonQtySum, List.map_cons, List.sum_cons]
    omega

theorem takeAll_of_le {α : Type} (n : Nat) (l : List α) (h : l.length ≤ n) :
    l.take n = l := by
  induction l generalizing n with
  | nil => simp
  | cons x xs ih =>
    cases n with
    | zero => simp at h
    | succ m =>
      simp only [List.take_succ_cons]
      rw [ih m (by simpa using h)]

theorem outProdCount_eq (mp : MP) (sales : List SalesItem) :
    outProdCount (aggregate_sales_data mp sales) =
      stProdCount (runAgg mp sales) := by
  unfold outProdCount aggregate_sales_data stProdCount
  dsimp only
  rw [List.map_map]
  have hc : ((fun x : String × ProdBucket => x.2.count) ∘
      fun x : String × ProdBucket =>
        (x.1, { x.2 with
          by_warehouse := sortDesc (fun y => y.2.revenue) x.2.by_warehouse })) =
      fun x : String × ProdBucket => x.2.count := rfl
  rw [hc]
  exact sum_map_sortDesc _ _ _

theorem outWhCount_eq_of_le (mp : MP) (sales : List SalesItem)
    (h : (runAgg mp sales).by_warehouse.length ≤ 15) :
    outWhCount (aggregate_sales_data mp sales) =
      stWhCount (runAgg mp sales) := by
  unfold outWhCount aggregate_sales_data stWhCount
  dsimp only
  rw [takeAll_of_le 15 _ (by rw [length_sortDesc]; exact h)]
  rw [List.map_map]
  have hc : ((fun x : String × WhBucket => x.2.count) ∘
      fun x : String × WhBucket =>
        (x.1, { x.2 with
          by_product :=
            sortDesc (fun y => ((y.2.count : Int) : ℚ)) x.2.by_product })) =
      fun x : String × WhBucket => x.2.count := rfl
  rw [hc]
  exact sum_map_sortDesc _ _ _

theorem outRegCount_eq_of_le (mp : MP) (sales : List SalesItem)
    (h : (runAgg mp sales).by_region.length ≤ 15) :
    outRegCount (aggregate_sales_data mp sales) =
      stRegCount (runAgg mp sales) := by
  unfold outRegCount aggregate_sales_data stRegCount
  dsimp only
  rw [takeAll_of_le 15 _ (by rw [length_sortDesc]; exact h)]
  exact sum_map_sortDesc _ _ _

theorem keys_foldl_wh (mp : MP) (sales : List SalesItem) (s : AggState) :
    (sales.foldl (stepOf mp) s).by_warehouse.map Prod.fst =
      sales.foldl
        (fun acc i => if primWh mp i ∈ acc then acc else acc ++ [primWh mp i])
        (s.by_warehouse.map Prod.fst) := by
  induction sales generalizing s with
  | nil => rfl
  | cons i t ih =>
    rw [List.foldl_cons, List.foldl_cons, ih]
    congr 1
    cases mp with
    | wb => exact keys_bump _ _ _ _
    | ozon => exact keys_bump _ _ _ _

theorem keys_foldl_reg (mp : MP) (sales : List SalesItem) (s : AggState) :
    (sales.foldl (stepOf mp) s).by_region.map Prod.fst =
      sales.foldl
        (fun acc i =>
          if primRegion mp i ∈ acc then acc else acc ++ [primRegion mp i])
        (s.by_region.map Prod.fst) := by
  induction sales generalizing s with
  | nil => rfl
  | cons i t ih =>
    rw [List.foldl_cons, List.foldl_cons, ih]
    congr 1
    cases mp with
    | wb => exact keys_bump _ _ _ _
    | ozon => exact keys_bump _ _ _ _

theorem whKeys_runAgg (mp : MP) (sales : List SalesItem) :
    (runAgg mp sales).by_warehouse.map Prod.fst =
      firstKeys (sales.map (primWh mp)) := by
  unfold runAgg firstKeys
  rw [keys_foldl_wh, List.foldl_map]
  rfl

theorem regKeys_runAgg (mp : MP) (sales : List SalesItem) :
    (runAgg mp sales).by_region.map Prod.fst =
      firstKeys (sales.map (primRegion mp)) := by
  unfold runAgg firstKeys
  rw [keys_foldl_reg, List.foldl_map]
  rfl

theorem partition_completeness_amended (sales : List SalesItem) :
    (∀ mp : MP,
      stWhCount (runAgg mp sales) = sales.length ∧
      stRegCount (runAgg mp sales) = sales.length ∧
      ((firstKeys (sales.map (primWh mp))).length ≤ 15 →
        outWhCount (aggregate_sales_data mp sales) = sales.length) ∧
      ((firstKeys (sales.map (primRegion mp))).length ≤ 15 →
        outRegCount (aggregate_sales_data mp sales) = sales.length)) ∧
    outProdCount (aggregate_sales_data MP.wb sales) = sales.length ∧
    outProdCount (aggregate_sales_data MP.ozon sales) = ozonQtySum sales ∧
    ∀ (p : Period) (t : Int),
      ((filterPeriod p t sales).all fun r => r.parsedDate.isSome) = true := by
  have hwh : ∀ mp, stWhCount (runAgg mp sales) = sales.length := fun mp => by
    have h := stWhCount_foldl mp sales initAggState
    simpa [stWhCount, initAggState, runAgg] using h
  have hreg : ∀ mp, stRegCount (runAgg mp sales) = sales.length := fun mp => by
    have h := stRegCount_foldl mp sales initAggState
    simpa [stRegCount, initAggState, runAgg] using h
  refine ⟨fun mp => ⟨hwh mp, hreg mp, fun hle => ?_, fun hle => ?_⟩, ?_, ?_, ?_⟩
  · rw [outWhCount_eq_of_le mp sales ?_, hwh mp]
    have hlen := congrArg List.length (whKeys_runAgg mp sales)
    simp only [List.length_map] at hlen
    omega
  · rw [outRegCount_eq_of_le mp sales ?_, hreg mp]
    have hlen := congrArg List.length (regKeys_runAgg mp sales)
    simp only [List.length_map] at hlen
    omega
  · rw [outProdCount_eq]
    have h := stProdCount_foldl_wb sales initAggState
    simpa [stProdCount, initAggState, runAgg, stepOf] using h
  · rw [outProdCount_eq]
    have h := stProdCount_foldl_ozon sales initAggState
    simpa [stProdCount, initAggState, runAgg, stepOf] using h
  · intro p t
    rw [List.all_eq_true]
    intro r hr
    have hmem := List.of_mem_filter hr
    cases hd : r.parsedDate with
    | none => rw [hd] at hmem; simp at hmem
    | some d => simp

theorem partition_completeness_amended_witness :
    ((firstKeys ([exWbItem].map (primWh MP.wb))).length ≤ 15 ∧
      outWhCount (aggregate_sales_data MP.wb [exWbItem]) = 1) ∧
    outProdCount (aggregate_sales_data MP.wb [exWbItem]) = 1 :=
  ⟨⟨by decide,
    by
      have h := ((partition_completeness_amended [exWbItem]).1 MP.wb).2.2.1
        (by decide)
      simpa using h⟩,
    by
      have h := (partition_completeness_amended [exWbItem]).2.1
      simpa using h⟩

theorem partition_completeness_counterexample :
    outProdCount (aggregate_sales_data MP.ozon
        [{ products := [{ offer_id := some "A", quantity := some 3 }] }]) = 3 ∧
    ([({ products := [{ offer_id := some "A", quantity := some 3 }] } :
        SalesItem)]).length = 1 := by
  constructor
  · with_unfolding_all decide
  · rfl

theorem subCount_bumpSub (price : ℚ) (cnt : Int) (l : List (String × SubBucket))
    (k : String) : subCount (bumpSub price cnt l k) = subCount l + cnt := by
  unfold subCount bumpSub
  rw [sum_map_bump l k ⟨0, 0⟩ _ (fun b => b.count) rfl]
  dsimp only
  omega

theorem subRev_bumpSub (price : ℚ) (cnt : Int) (l : List (String × SubBucket))
    (k : String) : subRev (bumpSub price cnt l k) = subRev l + price := by
  unfold subRev bumpSub
  rw [sum_map_bump l k ⟨0, 0⟩ _ (fun b => b.revenue) rfl]
  dsimp only
  ring

theorem subCount_sortDesc (key : String × SubBucket → ℚ)
    (l : List (String × SubBucket)) : subCount (sortDesc key l) = subCount l :=
  sum_map_sortDesc key _ l

theorem subRev_sortDesc (key : String × SubBucket → ℚ)
    (l : List (String × SubBucket)) : subRev (sortDesc key l) = subRev l :=
  sum_map_sortDesc key _ l

theorem whAdditive_foldl_wb (sales : List SalesItem) (s : AggState)
    (hs : ∀ x ∈ s.by_warehouse, whAdditive x.2) :
    ∀ x ∈ (sales.foldl stepWb s).by_warehouse, whAdditive x.2 := by
  induction sales generalizing s with
  | nil => exact hs
  | cons i t ih =>
    rw [List.foldl_cons]
    refine ih _ ?_
    simp only [stepWb]
    refine all_bump _ _ _ _ hs ?_ ?_
    · rintro b ⟨hc, hr⟩
      constructor
      · dsimp only
        rw [subCount_bumpSub]
        omega
      · dsimp only
        rw [subRev_bumpSub, hr]
    · constructor
      · dsimp only
        rw [subCount_bumpSub]
        simp [subCount]
      · dsimp only
        rw [subRev_bumpSub]
        simp [subRev]

theorem prodAdditive_foldl_wb (sales : List SalesItem) (s : AggState)
    (hs : ∀ x ∈ s.by_product, prodAdditive x.2) :
    ∀ x ∈ (sales.foldl stepWb s).by_product, prodAdditive x.2 := by
  induction sales generalizing s with
  | nil => exact hs
  | cons i t ih =>
    rw [List.foldl_cons]
    refine ih _ ?_
    simp only [stepWb]
    refine all_bump _ _ _ _ hs ?_ ?_
    · rintro b ⟨hc, hr⟩
      constructor
      · dsimp only
        rw [subCount_bumpSub]
        omega
      · dsimp only
        rw [subRev_bumpSub, hr]
    · constructor
      · dsimp only
        rw [subCount_bumpSub]
        simp [subCount]
      · dsimp only
        rw [subRev_bumpSub]
        simp [subRev]

theorem prodAdditive_stepOzonProducts (wh : String)
    (bp : List (String × ProdBucket)) (prods : List OzonProduct)
    (hs : ∀ x ∈ bp, prodAdditive x.2) :
    ∀ x ∈ stepOzonProducts wh bp prods, prodAdditive x.2 := by
  induction prods generalizing bp with
  | nil => exact hs
  | cons p ps ih =>
    unfold stepOzonProducts
    rw [List.foldl_cons]
    refine ih _ ?_
    refine all_bump _ _ _ _ hs ?_ ?_
    · rintro b ⟨hc, hr⟩
      constructor
      · dsimp only
        rw [subCount_bumpSub]
        omega
      · dsimp only
        rw [subRev_bumpSub, hr]
    · constructor
      · dsimp only
        rw [subCount_bumpSub]
        simp [subCount]
      · dsimp only
        rw [subRev_bumpSub]
        simp [subRev]

theorem prodAdditive_foldl_ozon (sales : List SalesItem) (s : AggState)
    (hs : ∀ x ∈ s.by_product, prodAdditive x.2) :
    ∀ x ∈ (sales.foldl stepOzon s).by_product, prodAdditive x.2 := by
  induction sales generalizing s with
  | nil => exact hs
  | cons i t ih =>
    rw [List.foldl_cons]
    exact ih _ (prodAdditive_stepOzonProducts _ _ _ hs)

theorem whEmpty_foldl_ozon (sales : List SalesItem) (s : AggState)
    (hs : ∀ x ∈ s.by_warehouse, x.2.by_product = []) :
    ∀ x ∈ (sales.foldl stepOzon s).by_warehouse, x.2.by_product = [] := by
  induction sales generalizing s with
  | nil => exact hs
  | cons i t ih =>
    rw [List.foldl_cons]
    refine ih _ ?_
    simp only [stepOzon]
    refine all_bump (P := fun b : WhBucket => b.by_product = []) _ _ _ _ hs ?_ ?_
    · intro b hb
      exact hb
    · rfl

theorem additivity_amended (sales : List SalesItem) :
    (∀ x ∈ (aggregate_sales_data MP.wb sales).sales_by_warehouse,
      whAdditive x.2) ∧
    (∀ x ∈ (aggregate_sales_data MP.wb sales).sales_by_product,
      prodAdditive x.2) ∧
    (∀ x ∈ (aggregate_sales_data MP.ozon sales).sales_by_product,
      prodAdditive x.2) ∧
    (∀ x ∈ (aggregate_sales_data MP.ozon sales).sales_by_warehouse,
      x.2.by_product = []) := by
  have hwb_wh : ∀ x ∈ (runAgg MP.wb sales).by_warehouse, whAdditive x.2 :=
    whAdditive_foldl_wb sales initAggState (by intro x hx; cases hx)
  have hwb_pr : ∀ x ∈ (runAgg MP.wb sales).by_product, prodAdditive x.2 :=
    prodAdditive_foldl_wb sales initAggState (by intro x hx; cases hx)
  have hoz_pr : ∀ x ∈ (runAgg MP.ozon sales).by_product, prodAdditive x.2 :=
    prodAdditive_foldl_ozon sales initAggState (by intro x hx; cases hx)
  have hoz_wh : ∀ x ∈ (runAgg MP.ozon sales).by_warehouse, x.2.by_product = [] :=
    whEmpty_foldl_ozon sales initAggState (by intro x hx; cases hx)
  refine ⟨?_, ?_, ?_, ?_⟩
  · intro x hx
    simp only [aggregate_sales_data, List.mem_map] at hx
    obtain ⟨y, hy, rfl⟩ := hx
    have hy2 := hwb_wh y (mem_sortDesc _ (List.mem_of_mem_take hy))
    exact ⟨by rw [subCount_sortDesc]; exact hy2.1,
           by rw [subRev_sortDesc]; exact hy2.2⟩
  · intro x hx
    simp only [aggregate_sales_data, List.mem_map] at hx
    obtain ⟨y, hy, rfl⟩ := hx
    have hy2 := hwb_pr y (mem_sortDesc _ hy)
    exact ⟨by rw [subCount_sortDesc]; exact hy2.1,
           by rw [subRev_sortDesc]; exact hy2.2⟩
  · intro x hx
    simp only [aggregate_sales_data, List.mem_map] at hx
    obtain ⟨y, hy, rfl⟩ := hx
    have hy2 := hoz_pr y (mem_sortDesc _ hy)
    exact ⟨by rw [subCount_sortDesc]; exact hy2.1,
           by rw [subRev_sortDesc]; exact hy2.2⟩
  · intro x hx
    simp only [aggregate_sales_data, List.mem_map] at hx
    obtain ⟨y, hy, rfl⟩ := hx
    have hy2 := hoz_wh y (mem_sortDesc _ (List.mem_of_mem_take hy))
    simp only [hy2]
    rfl

theorem additivity_amended_witness :
    ("W1", exWhBucket) ∈
      (aggregate_sales_data MP.wb
        [exWbItem, exWbItem]).sales_by_warehouse ∧
    whAdditive exWhBucket :=
  ⟨by with_unfolding_all decide,
   (additivity_amended [exWbItem, exWbItem]).1 ("W1", exWhBucket)
     (by with_unfolding_all decide)⟩

theorem additivity_counterexample :
    ¬ ∀ x ∈ (aggregate_sales_data MP.ozon
        [({} : SalesItem)]).sales_by_warehouse, whAdditive x.2 := by
  intro h
  have hx := h ("Unknown", { count := 0 + 1, revenue := 0 + 0, by_product := [] })
    (by with_unfolding_all decide)
  have hc := hx.1
  simp only [subCount, List.map_nil, List.sum_nil] at hc
  omega

theorem output_ordering_truncation (mp : MP) (sales : List SalesItem) :
    ((aggregate_sales_data mp sales).sales_by_warehouse.Pairwise fun a b =>
      b.2.revenue ≤ a.2.revenue) ∧
    ((aggregate_sales_data mp sales).sales_by_region.Pairwise fun a b =>
      b.2.revenue ≤ a.2.revenue) ∧
    ((aggregate_sales_data mp sales).sales_by_product.Pairwise fun a b =>
      b.2.revenue ≤ a.2.revenue) ∧
    (∀ q : ℚ,
      (sortDesc (fun x => x.2.revenue) (runAgg mp sales).by_warehouse).filter
          (fun x => decide (x.2.revenue = q)) =
        (runAgg mp sales).by_warehouse.filter
          (fun x => decide (x.2.revenue = q)) ∧
      (sortDesc (fun x => x.2.revenue) (runAgg mp sales).by_region).filter
          (fun x => decide (x.2.revenue = q)) =
        (runAgg mp sales).by_region.filter
          (fun x => decide (x.2.revenue = q)) ∧
      (sortDesc (fun x => x.2.revenue) (runAgg mp sales).by_product).filter
          (fun x => decide (x.2.revenue = q)) =
        (runAgg mp sales).by_product.filter
          (fun x => decide (x.2.revenue = q))) ∧
    (runAgg mp sales).by_warehouse.map Prod.fst =
      firstKeys (sales.map (primWh mp)) ∧
    (runAgg mp sales).by_region.map Prod.fst =
      firstKeys (sales.map (primRegion mp)) ∧
    (aggregate_sales_data mp sales).sales_by_warehouse.length ≤ 15 ∧
    (aggregate_sales_data mp sales).sales_by_region.length ≤ 15 ∧
    (aggregate_sales_data mp sales).sales_by_product.length =
      (runAgg mp sales).by_product.length := by
  refine ⟨?_, ?_, ?_, fun q => ⟨filter_sortDesc _ _ _, filter_sortDesc _ _ _,
    filter_sortDesc _ _ _⟩, whKeys_runAgg mp sales, regKeys_runAgg mp sales,
    ?_, ?_, ?_⟩
  · unfold aggregate_sales_data
    dsimp only
    refine List.pairwise_map.mpr ?_
    have hp := (pairwise_sortDesc (fun x : String × WhBucket => x.2.revenue)
      (runAgg mp sales).by_warehouse)
    exact (List.Pairwise.sublist (List.take_sublist 15 _) hp).imp fun h => h
  · unfold aggregate_sales_data
    dsimp only
    have hp := (pairwise_sortDesc (fun x : String × SubBucket => x.2.revenue)
      (runAgg mp sales).by_region)
    exact List.Pairwise.sublist (List.take_sublist 15 _) hp
  · unfold aggregate_sales_data
    dsimp only
    refine List.pairwise_map.mpr ?_
    have hp := (pairwise_sortDesc (fun x : String × ProdBucket => x.2.revenue)
      (runAgg mp sales).by_product)
    exact hp.imp fun h => h
  · unfold aggregate_sales_data
    dsimp only
    rw [List.length_map, List.length_take]
    exact min_le_left _ _
  · unfold aggregate_sales_data
    dsimp only
    rw [List.length_take]
    exact min_le_left _ _
  · unfold aggregate_sales_data
    dsimp only
    rw [List.length_map, length_sortDesc]

theorem missing_input_resilience (today : Int) :
    (∀ z : MpRaw,
      (prepare today none (some z)).wb_status = "No Data" ∧
      (prepare today none (some z)).ozon_status = "Online" ∧
      (prepare today none (some z)).summary.wb_stocks = 0 ∧
      (prepare today none (some z)).summary.ozon_stocks =
        z.total_stock_value ∧
      (prepare today none (some z)).summary.total_stocks =
        (prepare today none (some z)).summary.wb_stocks +
          (prepare today none (some z)).summary.ozon_stocks ∧
      (prepare today none (some z)).summary.total_sales_today =
        (aggregate_sales_data MP.ozon
          (filterPeriod todayPeriod today z.raw_orders)).revenue ∧
      ∀ p ∈ periods_config,
        lookupA p.key (prepare today none (some z)).period_data =
          some { wb := none,
                 ozon := some (aggregate_sales_data MP.ozon
                   (filterPeriod p today z.raw_orders)) }) ∧
    (∀ w : MpRaw,
      (prepare today (some w) none).wb_status = "Online" ∧
      (prepare today (some w) none).ozon_status = "No Data" ∧
      (prepare today (some w) none).summary.ozon_stocks = 0 ∧
      (prepare today (some w) none).summary.wb_stocks =
        w.total_stock_value ∧
      (prepare today (some w) none).summary.total_stocks =
        (prepare today (some w) none).summary.wb_stocks +
          (prepare today (some w) none).summary.ozon_stocks ∧
      (prepare today (some w) none).summary.total_sales_today =
        (aggregate_sales_data MP.wb
          (filterPeriod todayPeriod today w.raw_orders)).revenue ∧
      ∀ p ∈ periods_config,
        lookupA p.key (prepare today (some w) none).period_data =
          some { wb := some (aggregate_sales_data MP.wb
                   (filterPeriod p today w.raw_orders)),
                 ozon := none }) := by
  constructor
  · intro z
    refine ⟨rfl, rfl, rfl, rfl, rfl, ?_, ?_⟩
    · have h : (prepare today none (some z)).summary.total_sales_today =
          0 + (aggregate_sales_data MP.ozon
            (filterPeriod todayPeriod today z.raw_orders)).revenue := rfl
      rw [h, zero_add]
    · intro p hp
      simp only [periods_config, List.mem_cons, List.not_mem_nil, or_false] at hp
      rcases hp with rfl | rfl | rfl | rfl | rfl <;> rfl
  · intro w
    refine ⟨rfl, rfl, rfl, rfl, rfl, ?_, ?_⟩
    · have h : (prepare today (some w) none).summary.total_sales_today =
          (aggregate_sales_data MP.wb
            (filterPeriod todayPeriod today w.raw_orders)).revenue + 0 := rfl
      rw [h, add_zero]
    · intro p hp
      simp only [periods_config, List.mem_cons, List.not_mem_nil, or_false] at hp
      rcases hp with rfl | rfl | rfl | rfl | rfl <;> rfl

theorem missing_input_resilience_witness :
    (prepare 0 none
      (some { total_stock_value := 5, raw_orders := [] })).wb_status =
        "No Data" ∧
    lookupA "today"
        (prepare 0 none
          (some { total_stock_value := 5, raw_orders := [] })).period_data =
      some { wb := none,
             ozon := some (aggregate_sales_data MP.ozon
               (filterPeriod todayPeriod 0 [])) } :=
  ⟨((missing_input_resilience 0).1
      { total_stock_value := 5, raw_orders := [] }).1,
   ((missing_input_resilience 0).1
      { total_stock_value := 5, raw_orders := [] }).2.2.2.2.2.2
      todayPeriod (by decide)⟩

theorem lookupA_mem {β : Type} {k : String} {v : β} :
    ∀ {l : List (String × β)}, lookupA k l = some v → (k, v) ∈ l := by
  intro l
  induction l with
  | nil => intro h; cases h
  | cons hd t ih =>
    obtain ⟨k', v'⟩ := hd
    intro h
    simp only [lookupA] at h
    by_cases hk : k' = k
    · rw [if_pos hk] at h
      injection h with h
      subst hk
      subst h
      exact List.mem_cons_self _ _
    · rw [if_neg hk] at h
      exact List.mem_cons_of_mem _ (ih h)

theorem lookupA_eq_none {β : Type} {k : String} :
    ∀ {l : List (String × β)}, k ∉ l.map Prod.fst → lookupA k l = none := by
  intro l
  induction l with
  | nil => intro _; rfl
  | cons hd t ih =>
    obtain ⟨k', v'⟩ := hd
    intro h
    simp only [List.map_cons, List.mem_cons] at h
    push_neg at h
    have hk : k' ≠ k := fun he => h.1 (Eq.symm he)
    simp only [lookupA, if_neg hk]
    exact ih h.2

theorem sum_map_zero_int {α : Type} (l : List α) :
    (l.map fun _ => (0 : Int)).sum = 0 := by
  induction l with
  | nil => rfl
  | cons x xs ih => simp [ih]

theorem swap_sum {α β : Type} (f : α → β → Int) (l1 : List α) :
    ∀ l2 : List β,
      (l1.map fun a => (l2.map fun b => f a b).sum).sum =
        (l2.map fun b => (l1.map fun a => f a b).sum).sum := by
  induction l1 with
  | nil =>
    intro l2
    simp only [List.map_nil, List.sum_nil]
    induction l2 with
    | nil => rfl
    | cons b bs ihb => simpa using ihb
  | cons a as ih =>
    intro l2
    simp only [List.map_cons, List.sum_cons, ih l2]
    rw [← List.sum_map_add]

theorem sum_ite_insert (k : String) (v : Int) (g : String → Int) :
    ∀ arts : List String, arts.Nodup →
      (arts.map fun a => if k = a then v else g a).sum =
        (arts.map g).sum + (if k ∈ arts then v - g k else 0) := by
  intro arts
  induction arts with
  | nil => intro _; simp
  | cons a as ih =>
    intro hnd
    obtain ⟨hna, hnd'⟩ := List.nodup_cons.mp hnd
    simp only [List.map_cons, List.sum_cons, ih hnd']
    by_cases hka : k = a
    · subst hka
      have : k ∉ as := hna
      simp only [if_pos rfl, List.mem_cons, true_or, if_true, if_neg this]
      omega
    · simp only [if_neg hka, List.mem_cons]
      have : (k ∈ ([a] : List String) ∨ k ∈ as) ↔ (k = a ∨ k ∈ as) := by simp
      by_cases hmem : k ∈ as
      · simp only [hmem, or_true, if_true, if_pos hmem]
        omega
      · have : ¬ (k = a ∨ k ∈ as) := by
          rintro (h | h)
          · exact hka h
          · exact hmem h
        simp only [if_neg this, if_neg hmem]
        omega

theorem sum_lookups_eq_sum_values (arts : List String) (h1 : arts.Nodup) :
    ∀ ps : List (String × Int),
      (ps.map Prod.fst).Nodup →
      (∀ kv ∈ ps, kv.2 ≠ 0 → kv.1 ∈ arts) →
      (arts.map fun a => (lookupA a ps).getD 0).sum =
        (ps.map Prod.snd).sum := by
  intro ps
  induction ps with
  | nil =>
    intro _ _
    rw [show (arts.map fun a => (lookupA a ([] : List (String × Int))).getD 0) =
      arts.map fun _ => (0 : Int) from rfl]
    rw [sum_map_zero_int]
    rfl
  | cons kv ps' ih =>
    obtain ⟨k, v⟩ := kv
    intro hnd hcov
    simp only [List.map_cons] at hnd
    obtain ⟨hknot, hnd'⟩ := List.nodup_cons.mp hnd
    have hstep : (arts.map fun a => (lookupA a ((k, v) :: ps')).getD 0) =
        arts.map fun a => if k = a then v else (lookupA a ps').getD 0 := by
      apply List.map_congr_left
      intro a _
      by_cases hka : k = a <;> simp [lookupA, hka]
    rw [hstep, sum_ite_insert k v _ arts h1]
    have hlk : (lookupA k ps').getD 0 = 0 := by
      rw [lookupA_eq_none hknot]
      rfl
    have hdelta : (if k ∈ arts then v - (lookupA k ps').getD 0 else 0) = v := by
      rw [hlk]
      by_cases hmem : k ∈ arts
      · simp [hmem]
      · have hv : v = 0 := by
          by_contra hv
          exact hmem (hcov (k, v) (List.mem_cons_self _ _) hv)
        simp [hmem, hv]
    rw [ih hnd' fun kv2 h2 => hcov kv2 (List.mem_cons_of_mem _ h2), hdelta]
    simp only [List.map_cons, List.sum_cons]
    omega

theorem mkInfos_sum_span (mp : MP) (whs : List StockWh) :
    ∀ (cs : List String) (start : Int),
      ((mkInfos mp whs cs start).map fun ci =>
        ci.end_index - ci.start_index + 1).sum =
      (cs.map fun c => ((whsOfCluster mp whs c).length : Int)).sum := by
  intro cs
  induction cs with
  | nil => intro _; rfl
  | cons c rest ih =>
    intro start
    simp only [mkInfos, List.map_cons, List.sum_cons, ih]
    omega

theorem mkInfos_sum_total (mp : MP) (whs : List StockWh) :
    ∀ (cs : List String) (start : Int),
      ((mkInfos mp whs cs start).map fun ci => ci.total_stock).sum =
      (cs.map fun c => totalStockOf (whsOfCluster mp whs c)).sum := by
  intro cs
  induction cs with
  | nil => intro _; rfl
  | cons c rest ih =>
    intro start
    simp only [mkInfos, List.map_cons, List.sum_cons, ih]

theorem chartLabels_length (mp : MP) (whs : List StockWh) :
    (chartLabels mp whs).length =
      ((sortedClusters mp whs).map fun c => (whsOfCluster mp whs c).length).sum := by
  unfold chartLabels
  rw [List.length_flatten, List.map_map]
  congr 1
  apply List.map_congr_left
  intro c _
  simp [Function.comp]

theorem seriesValues_length (mp : MP) (whs : List StockWh) (a : String) :
    (seriesValues mp whs a).length = (chartLabels mp whs).length := by
  unfold seriesValues
  rw [chartLabels_length, List.length_flatten, List.map_map]
  congr 1
  apply List.map_congr_left
  intro c _
  simp [Function.comp]

theorem seriesValues_sum (mp : MP) (whs : List StockWh) (a : String) :
    (seriesValues mp whs a).sum =
      ((((sortedClusters mp whs).map (whsOfCluster mp whs)).flatten).map
        fun wh => (lookupA a wh.products).getD 0).sum := by
  unfold seriesValues
  rw [List.map_flatten, List.map_map]
  rfl

theorem seriesValues_nonneg (mp : MP) (whs : List StockWh) (a : String)
    (h3 : ∀ wh ∈ whs, ∀ kv ∈ wh.products, 0 ≤ kv.2) :
    ∀ q ∈ seriesValues mp whs a, 0 ≤ q := by
  intro q hq
  unfold seriesValues at hq
  rw [List.mem_flatten] at hq
  obtain ⟨l, hl, hql⟩ := hq
  rw [List.mem_map] at hl
  obtain ⟨c, -, rfl⟩ := hl
  rw [List.mem_map] at hql
  obtain ⟨wh, hwh, rfl⟩ := hql
  have hwh' : wh ∈ whs := List.mem_of_mem_filter hwh
  cases hlk : lookupA a wh.products with
  | none => simp [hlk]
  | some v =>
    have hv := h3 wh hwh' (a, v) (lookupA_mem hlk)
    simp only [hlk, Option.getD_some]
    exact hv

theorem sum_datasets_eq (pyHash : String → Nat) (mp : MP) (whs : List StockWh) :
    ∀ arts : List String,
      (∀ a ∈ arts, ∀ q ∈ seriesValues mp whs a, 0 ≤ q) →
      (((arts.map (mkSeries pyHash mp whs)).filter fun ds =>
          ds.data.any fun q => decide (0 < q)).map fun ds => ds.data.sum).sum =
        (arts.map fun a => (seriesValues mp whs a).sum).sum := by
  intro arts
  induction arts with
  | nil => intro _; rfl
  | cons a as ih =>
    intro hpos
    have ih2 := ih fun a2 ha2 => hpos a2 (List.mem_cons_of_mem _ ha2)
    simp only [List.map_cons, List.filter_cons]
    by_cases hany :
        ((mkSeries pyHash mp whs a).data.any fun q => decide (0 < q)) = true
    · rw [if_pos hany]
      simp only [List.map_cons, List.sum_cons, ih2]
      rfl
    · rw [if_neg hany]
      have hzero : (seriesValues mp whs a).sum = 0 := by
        apply List.sum_eq_zero
        intro q hq
        have hge := hpos a (List.mem_cons_self _ _) q hq
        by_contra h0
        have hlt : (0 : Int) < q := by omega
        exact hany (List.any_eq_true.mpr ⟨q, hq, by simpa using hlt⟩)
      rw [ih2]
      simp only [List.sum_cons, hzero, zero_add]

theorem chart_alignment (pyHash : String → Nat) (mp : MP) (whs : List StockWh)
    (arts : List String) :
    (((mkChart pyHash mp whs arts).clusters.map fun ci =>
        ci.end_index - ci.start_index + 1).sum =
      ((mkChart pyHash mp whs arts).labels.length : Int)) ∧
    (∀ ds ∈ (mkChart pyHash mp whs arts).datasets,
      ds.data.length = (mkChart pyHash mp whs arts).labels.length) ∧
    (∀ ds ∈ (mkChart pyHash mp whs arts).datasets,
      (ds.data.any fun q => decide (0 < q)) = true) ∧
    (∀ a ∈ arts,
      ((seriesValues mp whs a).any fun q => decide (0 < q)) = true →
      mkSeries pyHash mp whs a ∈ (mkChart pyHash mp whs arts).datasets) ∧
    (arts.Nodup →
      (∀ wh ∈ whs, ∀ kv ∈ wh.products, kv.2 ≠ 0 → kv.1 ∈ arts) →
      (∀ wh ∈ whs, (wh.products.map Prod.fst).Nodup) →
      (∀ wh ∈ whs, ∀ kv ∈ wh.products, 0 ≤ kv.2) →
      ((mkChart pyHash mp whs arts).clusters.map fun ci => ci.total_stock).sum =
        ((mkChart pyHash mp whs arts).datasets.map fun ds => ds.data.sum).sum) ∧
    (whs ≠ [] → arts ≠ [] →
      buildChart pyHash mp whs arts = some (mkChart pyHash mp whs arts)) := by
  refine ⟨?_, ?_, ?_, ?_, ?_, ?_⟩
  · show ((mkInfos mp whs (sortedClusters mp whs) 0).map fun ci =>
        ci.end_index - ci.start_index + 1).sum = ((chartLabels mp whs).length : Int)
    rw [mkInfos_sum_span, chartLabels_length]
    push_cast
    rw [List.map_map]
    rfl
  · intro ds hds
    have hds2 := List.mem_of_mem_filter hds
    rw [List.mem_map] at hds2
    obtain ⟨a, -, rfl⟩ := hds2
    exact seriesValues_length mp whs a
  · intro ds hds
    exact (List.mem_filter.mp hds).2
  · intro a ha hpos
    exact List.mem_filter.mpr ⟨List.mem_map_of_mem _ ha, hpos⟩
  · intro h1 h2 h4 h3
    show ((mkInfos mp whs (sortedClusters mp whs) 0).map
        fun ci => ci.total_stock).sum = _
    rw [mkInfos_sum_total]
    have hL : ∀ wh ∈ ((sortedClusters mp whs).map (whsOfCluster mp whs)).flatten,
        wh ∈ whs := by
      intro wh hwh
      rw [List.mem_flatten] at hwh
      obtain ⟨l, hl, hwl⟩ := hwh
      rw [List.mem_map] at hl
      obtain ⟨c, -, rfl⟩ := hl
      exact List.mem_of_mem_filter hwl
    have step1 : ((sortedClusters mp whs).map fun c =>
        totalStockOf (whsOfCluster mp whs c)).sum =
        ((((sortedClusters mp whs).map (whsOfCluster mp whs)).flatten).map
          fun wh => (wh.products.map Prod.snd).sum).sum := by
      rw [List.map_flatten, List.map_map, List.sum_flatten, List.map_map]
      rfl
    have step2 : ((((sortedClusters mp whs).map (whsOfCluster mp whs)).flatten).map
        fun wh => (wh.products.map Prod.snd).sum).sum =
        ((((sortedClusters mp whs).map (whsOfCluster mp whs)).flatten).map
          fun wh => (arts.map fun a => (lookupA a wh.products).getD 0).sum).sum := by
      apply congrArg
      apply List.map_congr_left
      intro wh hwh
      exact (sum_lookups_eq_sum_values arts h1 wh.products (h4 wh (hL wh hwh))
        fun kv hkv => h2 wh (hL wh hwh) kv hkv).symm
    have step3 : ((((sortedClusters mp whs).map (whsOfCluster mp whs)).flatten).map
        fun wh => (arts.map fun a => (lookupA a wh.products).getD 0).sum).sum =
        (arts.map fun a => (seriesValues mp whs a).sum).sum := by
      have hsw := swap_sum (fun wh a => (lookupA a wh.products).getD 0)
        (((sortedClusters mp whs).map (whsOfCluster mp whs)).flatten) arts
      rw [hsw]
      apply congrArg
      apply List.map_congr_left
      intro a _
      exact (seriesValues_sum mp whs a).symm
    rw [step1, step2, step3]
    exact (sum_datasets_eq pyHash mp whs arts
      fun a _ => seriesValues_nonneg mp whs a h3).symm
  · intro hw ha
    have hw2 : whs.isEmpty = false := by
      cases whs with
      | nil => exact absurd rfl hw
      | cons x xs => rfl
    have ha2 : arts.isEmpty = false := by
      cases arts with
      | nil => exact absurd rfl ha
      | cons x xs => rfl
    simp [buildChart, hw2, ha2]

theorem chart_alignment_witness :
    (((mkChart (fun _ => 0) MP.wb exChartWhs exChartArts).clusters.map
        fun ci => ci.total_stock).sum =
      ((mkChart (fun _ => 0) MP.wb exChartWhs exChartArts).datasets.map
        fun ds => ds.data.sum).sum) ∧
    buildChart (fun _ => 0) MP.wb exChartWhs exChartArts =
      some (mkChart (fun _ => 0) MP.wb exChartWhs exChartArts) ∧
    (mkChart (fun _ => 0) MP.wb exChartWhs exChartArts).labels =
      ["Коледино", "Невинномысск"] ∧
    (mkChart (fun _ => 0) MP.wb exChartWhs exChartArts).datasets =
      [{ label := "SF0125", data := [10, 5], backgroundColor := "#614701" }] :=
  ⟨(chart_alignment (fun _ => 0) MP.wb exChartWhs exChartArts).2.2.2.2.1
      (by decide) (by decide) (by decide) (by decide),
   (chart_alignment (fun _ => 0) MP.wb exChartWhs exChartArts).2.2.2.2.2
      (by decide) (by decide),
   by decide, by decide⟩

end DBoard

